import Mathlib

/-!
Poryscript AST (package ast, file ast/ast.go)

A shallow embedding of the abstract syntax tree of Poryscript and of the
TokenLiteral methods of its nodes.

Conventions of the embedding:

* a Go pointer `*T` is an `Option T`; `none` is the nil pointer;
* a Go slice `[]T` is a `List T`; the nil slice and the empty slice both have
  length 0 and are both the empty list;
* a value of the Go interface type `Statement` stored in a slice is an
  `Option Statement`: `none` is the nil interface value, `some s` is an
  interface value whose dynamic type is one of the pointer types that
  implement the interface (the pointer it holds may itself be nil);
* a Go method that can fail at run time returns `Except Panic _`;
* the field `Type` of ConditionExpression and of Token is called `Kind`,
  since `Type` is reserved.
-/

namespace token

/-- Modelled from the spec: the declaration of `token.Type` is not part of the
source file; the spec calls it the kind of a token. It is represented by its
name. -/
abbrev TokenType := String

/-- Modelled from the spec: the declaration of `token.Token` is not part of the
source file; the spec describes a token as literal text plus kind. The source
reads only the field `Literal`. -/
structure Token where
  Kind : TokenType
  Literal : String
  deriving DecidableEq, Repr

end token

namespace ast

/-- Run-time failures of the Go code. -/
inductive Panic where
  | nilDereference
  | indexOutOfRange
  deriving DecidableEq, Repr

/-- Reading through a pointer: the nil pointer panics. -/
def deref {α : Type} (p : Option α) : Except Panic α :=
  match p with
  | some a => pure a
  | none => throw Panic.nilDereference

/-- Text holds a label and value for some script text. -/
structure Text where
  Name : String
  Value : String
  deriving DecidableEq, Repr

/-- Identifier represents a Poryscript identifier. -/
structure Identifier where
  Token : token.Token
  Value : String
  deriving DecidableEq, Repr

/-- CommandStatement is a Poryscript command statement. -/
structure CommandStatement where
  Token : token.Token
  Name : Option Identifier
  Args : List String
  deriving DecidableEq, Repr

/-- RawStatement is a Poryscript raw statement. -/
structure RawStatement where
  Token : token.Token
  Name : Option Identifier
  Value : String
  IsGlobal : Bool
  deriving DecidableEq, Repr

mutual

/-- ScriptStatement is a Poryscript script statement: Token, Name, Body. -/
inductive ScriptStatement where
  | mk (Token : token.Token) (Name : Option Identifier) (Body : Option BlockStatement)

/-- BlockStatement is a Poryscript block: Token, Statements. -/
inductive BlockStatement where
  | mk (Token : token.Token) (Statements : List (Option Statement))

/-- ConditionExpression is the condition for an if statement: Type, Operand,
Operator, ComparisonValue, Body. -/
inductive ConditionExpression where
  | mk (Kind : token.TokenType) (Operand : String) (Operator : token.TokenType)
      (ComparisonValue : String) (Body : Option BlockStatement)

/-- IfStatement is an if statement: Token, Consequence, ElifConsequences,
ElseConsequence. -/
inductive IfStatement where
  | mk (Token : token.Token) (Consequence : Option ConditionExpression)
      (ElifConsequences : List (Option ConditionExpression))
      (ElseConsequence : Option BlockStatement)

/-- A non-nil value of the interface Statement: its dynamic type is one of the
five pointer types that declare the method statementNode, and it holds a
pointer of that type. -/
inductive Statement where
  | script (p : Option ScriptStatement)
  | block (p : Option BlockStatement)
  | command (p : Option CommandStatement)
  | raw (p : Option RawStatement)
  | ifStmt (p : Option IfStatement)

end

/-- Program represents the root-level Node in any Poryscript AST. -/
structure Program where
  TopLevelStatements : List (Option Statement)
  Texts : List Text

/-! ## Field selectors of the mutually declared node types -/

/-- Field Token of a ScriptStatement. -/
def ScriptStatement.Token : ScriptStatement → token.Token
  | .mk t _ _ => t

/-- Field Name of a ScriptStatement. -/
def ScriptStatement.Name : ScriptStatement → Option Identifier
  | .mk _ n _ => n

/-- Field Body of a ScriptStatement. -/
def ScriptStatement.Body : ScriptStatement → Option BlockStatement
  | .mk _ _ b => b

/-- Field Token of a BlockStatement. -/
def BlockStatement.Token : BlockStatement → token.Token
  | .mk t _ => t

/-- Field Statements of a BlockStatement. -/
def BlockStatement.Statements : BlockStatement → List (Option Statement)
  | .mk _ ss => ss

/-- Field Type of a ConditionExpression. -/
def ConditionExpression.Kind : ConditionExpression → token.TokenType
  | .mk k _ _ _ _ => k

/-- Field Operand of a ConditionExpression. -/
def ConditionExpression.Operand : ConditionExpression → String
  | .mk _ o _ _ _ => o

/-- Field Operator of a ConditionExpression. -/
def ConditionExpression.Operator : ConditionExpression → token.TokenType
  | .mk _ _ o _ _ => o

/-- Field ComparisonValue of a ConditionExpression. -/
def ConditionExpression.ComparisonValue : ConditionExpression → String
  | .mk _ _ _ v _ => v

/-- Field Body of a ConditionExpression. -/
def ConditionExpression.Body : ConditionExpression → Option BlockStatement
  | .mk _ _ _ _ b => b

/-- Field Token of an IfStatement. -/
def IfStatement.Token : IfStatement → token.Token
  | .mk t _ _ _ => t

/-- Field Consequence of an IfStatement. -/
def IfStatement.Consequence : IfStatement → Option ConditionExpression
  | .mk _ c _ _ => c

/-- Field ElifConsequences of an IfStatement. -/
def IfStatement.ElifConsequences : IfStatement → List (Option ConditionExpression)
  | .mk _ _ es _ => es

/-- Field ElseConsequence of an IfStatement. -/
def IfStatement.ElseConsequence : IfStatement → Option BlockStatement
  | .mk _ _ _ e => e

/-! ## The TokenLiteral methods -/

/-- The index expression `xs[i]` of Go: out of range panics. -/
def index {α : Type} (xs : List α) (i : Nat) : Except Panic α :=
  match xs[i]? with
  | some a => pure a
  | none => throw Panic.indexOutOfRange

/-- TokenLiteral returns a string representation of the script statement:
`return ss.Token.Literal`. -/
def ScriptStatement.TokenLiteral (ss : Option ScriptStatement) : Except Panic String := do
  let s ← deref ss
  pure s.Token.Literal

/-- TokenLiteral returns a string representation of the block statement:
`return bs.Token.Literal`. -/
def BlockStatement.TokenLiteral (bs : Option BlockStatement) : Except Panic String := do
  let b ← deref bs
  pure b.Token.Literal

/-- TokenLiteral returns a string representation of the command statement:
`return cs.Token.Literal`. -/
def CommandStatement.TokenLiteral (cs : Option CommandStatement) : Except Panic String := do
  let c ← deref cs
  pure c.Token.Literal

/-- TokenLiteral returns a string representation of the identifier:
`return i.Token.Literal`. -/
def Identifier.TokenLiteral (i : Option Identifier) : Except Panic String := do
  let x ← deref i
  pure x.Token.Literal

/-- TokenLiteral returns a string representation of the raw statement:
`return rs.Token.Literal`. -/
def RawStatement.TokenLiteral (rs : Option RawStatement) : Except Panic String := do
  let r ← deref rs
  pure r.Token.Literal

/-- TokenLiteral returns a string representation of the if statement:
`return ie.Token.Literal`. -/
def IfStatement.TokenLiteral (ie : Option IfStatement) : Except Panic String := do
  let i ← deref ie
  pure i.Token.Literal

/-- The method call `s.TokenLiteral()` on a value `s` of the interface type
Statement: the nil interface value panics, any other value runs the method of
its dynamic type on the pointer it holds. -/
def Statement.TokenLiteral (s : Option Statement) : Except Panic String :=
  match s with
  | none => throw Panic.nilDereference
  | some (.script p) => ScriptStatement.TokenLiteral p
  | some (.block p) => BlockStatement.TokenLiteral p
  | some (.command p) => CommandStatement.TokenLiteral p
  | some (.raw p) => RawStatement.TokenLiteral p
  | some (.ifStmt p) => IfStatement.TokenLiteral p

/-- TokenLiteral returns a string representation of the Program node:
the literal of the first top-level statement when there is one, otherwise
the empty string. -/
def Program.TokenLiteral (p : Option Program) : Except Panic String := do
  let prog ← deref p
  if prog.TopLevelStatements.length > 0 then
    let s ← index prog.TopLevelStatements 0
    Statement.TokenLiteral s
  else
    pure ""

/-! ## The declarations of the file: struct fields, method sets, interfaces -/

/-- The struct types declared in the file, in declaration order. -/
inductive TypeName where
  | Text
  | Program
  | ScriptStatement
  | BlockStatement
  | CommandStatement
  | Identifier
  | RawStatement
  | ConditionExpression
  | IfStatement
  deriving DecidableEq, Repr

/-- The fields declared by each struct type, in declaration order, each with
the text of its declared type. -/
def TypeName.fields : TypeName → List (String × String)
  | .Text => [("Name", "string"), ("Value", "string")]
  | .Program => [("TopLevelStatements", "[]Statement"), ("Texts", "[]Text")]
  | .ScriptStatement =>
      [("Token", "token.Token"), ("Name", "*Identifier"), ("Body", "*BlockStatement")]
  | .BlockStatement => [("Token", "token.Token"), ("Statements", "[]Statement")]
  | .CommandStatement =>
      [("Token", "token.Token"), ("Name", "*Identifier"), ("Args", "[]string")]
  | .Identifier => [("Token", "token.Token"), ("Value", "string")]
  | .RawStatement =>
      [("Token", "token.Token"), ("Name", "*Identifier"), ("Value", "string"),
        ("IsGlobal", "bool")]
  | .ConditionExpression =>
      [("Type", "token.Type"), ("Operand", "string"), ("Operator", "token.Type"),
        ("ComparisonValue", "string"), ("Body", "*BlockStatement")]
  | .IfStatement =>
      [("Token", "token.Token"), ("Consequence", "*ConditionExpression"),
        ("ElifConsequences", "[]*ConditionExpression"),
        ("ElseConsequence", "*BlockStatement")]

/-- The methods declared with a receiver of type pointer to each struct type,
in declaration order. -/
def TypeName.methods : TypeName → List String
  | .Text => []
  | .Program => ["TokenLiteral"]
  | .ScriptStatement => ["statementNode", "TokenLiteral"]
  | .BlockStatement => ["statementNode", "TokenLiteral"]
  | .CommandStatement => ["statementNode", "TokenLiteral"]
  | .Identifier => ["expressionNode", "TokenLiteral"]
  | .RawStatement => ["statementNode", "TokenLiteral"]
  | .ConditionExpression => []
  | .IfStatement => ["statementNode", "TokenLiteral"]

/-- The interface types declared in the file. -/
inductive InterfaceName where
  | Node
  | Statement
  deriving DecidableEq, Repr

/-- The methods of the interface Node: it declares TokenLiteral. -/
def nodeMethods : List String := ["TokenLiteral"]

/-- The methods of the interface Statement: it embeds Node and declares
statementNode. -/
def statementMethods : List String := nodeMethods ++ ["statementNode"]

/-- The method set of each interface. -/
def InterfaceName.methodSet : InterfaceName → List String
  | .Node => nodeMethods
  | .Statement => statementMethods

/-- Interface satisfaction in Go: the pointer type implements the interface
when its method set contains every method of the interface. -/
def implements (t : TypeName) (i : InterfaceName) : Bool :=
  i.methodSet.all (fun m => decide (m ∈ t.methods))

/-- Whether the struct type declares a field Token of type token.Token. -/
def hasTokenField (t : TypeName) : Bool :=
  decide (("Token", "token.Token") ∈ t.fields)

/-- The dynamic type of a non-nil value of the interface Statement. -/
def Statement.typeName : Statement → TypeName
  | .script _ => .ScriptStatement
  | .block _ => .BlockStatement
  | .command _ => .CommandStatement
  | .raw _ => .RawStatement
  | .ifStmt _ => .IfStatement

/-- The five statement variants. -/
def statementVariants : List TypeName :=
  [.ScriptStatement, .BlockStatement, .CommandStatement, .RawStatement, .IfStatement]

/-- The dynamic type of a value of the interface type Statement: the nil
interface value has none, any other value has the type of the pointer it
holds. -/
def Statement.dynamicType : Option Statement → Option TypeName
  | none => none
  | some s => some s.typeName

/-- The dynamic types of the non-nil values stored in a slice of Statement, in
order. -/
def dynamicTypes (xs : List (Option Statement)) : List TypeName :=
  xs.filterMap Statement.dynamicType

/-! ## Traversal of an if statement and the accumulating operations of Program -/

/-- Modelled from the spec: the traversal of the elif arms by the emitter is
not in the source file. The spec has the arms read in the exact order stored;
each arm is a pointer, and reading the Body of an arm reads through it. -/
def elifBodies : List (Option ConditionExpression) → Except Panic (List (Option BlockStatement))
  | [] => pure []
  | e :: es => do
    let arm ← deref e
    let rest ← elifBodies es
    pure (arm.Body :: rest)

/-- Modelled from the spec: the traversal of an if statement by the emitter is
not in the source file. The spec has Consequence read first, then
ElifConsequences in the exact order stored; the result lists the bodies of
these candidates in that order. -/
def IfStatement.candidateBodies (ie : IfStatement) :
    Except Panic (List (Option BlockStatement)) := do
  let first ← deref ie.Consequence
  let rest ← elifBodies ie.ElifConsequences
  pure (first.Body :: rest)

/-- Modelled from the spec: the final fallback of the traversal of an if
statement, not in the source file, is the ElseConsequence, if present. -/
def IfStatement.fallback (ie : IfStatement) : Option BlockStatement :=
  ie.ElseConsequence

/-- Modelled from the spec: the operation that appends a text entry to a
Program is not in the source file. The spec has it preserve order, without
deduplication and without validation: the Go statement
`p.Texts = append(p.Texts, t)`. -/
def Program.appendText (p : Program) (t : Text) : Program :=
  { p with Texts := p.Texts ++ [t] }

/-- Modelled from the spec: the operation that appends a top-level statement
to a Program is not in the source file. The spec has it preserve order,
without deduplication and without validation: the Go statement
`p.TopLevelStatements = append(p.TopLevelStatements, s)`. -/
def Program.appendStatement (p : Program) (s : Option Statement) : Program :=
  { p with TopLevelStatements := p.TopLevelStatements ++ [s] }

/-- Whether a value of the interface type Statement is a non-nil node: it is
not the nil interface value, and the pointer it holds is not the nil
pointer. -/
def Statement.nonNil : Option Statement → Bool
  | none => false
  | some (.script p) => p.isSome
  | some (.block p) => p.isSome
  | some (.command p) => p.isSome
  | some (.raw p) => p.isSome
  | some (.ifStmt p) => p.isSome

/-! ## State-passing form of the TokenLiteral methods

A method with a pointer receiver runs on the node its receiver refers to and
may write to it. In the state-passing form the node before the call is the
input state and the node after the call is the output state. The method call
on a child stores the child the callee leaves back into its parent. -/

/-- Running a method on the target of a pointer: the nil pointer panics,
otherwise the method runs on the target, and the target it leaves is the new
target of the pointer. -/
def onPointee {α β : Type} (m : StateT α (Except Panic) β) :
    StateT (Option α) (Except Panic) β := fun p =>
  match p with
  | none => throw Panic.nilDereference
  | some a => do
    let (r, a1) ← m a
    pure (r, some a1)

/-- State-passing form of ScriptStatement.TokenLiteral. -/
def ScriptStatement.TokenLiteralM : StateT ScriptStatement (Except Panic) String := do
  let ss ← get
  pure ss.Token.Literal

/-- State-passing form of BlockStatement.TokenLiteral. -/
def BlockStatement.TokenLiteralM : StateT BlockStatement (Except Panic) String := do
  let bs ← get
  pure bs.Token.Literal

/-- State-passing form of CommandStatement.TokenLiteral. -/
def CommandStatement.TokenLiteralM : StateT CommandStatement (Except Panic) String := do
  let cs ← get
  pure cs.Token.Literal

/-- State-passing form of RawStatement.TokenLiteral. -/
def RawStatement.TokenLiteralM : StateT RawStatement (Except Panic) String := do
  let rs ← get
  pure rs.Token.Literal

/-- State-passing form of IfStatement.TokenLiteral. -/
def IfStatement.TokenLiteralM : StateT IfStatement (Except Panic) String := do
  let ie ← get
  pure ie.Token.Literal

/-- State-passing form of the method call on a value of the interface type
Statement: the state is the interface value together with the node it points
to. -/
def Statement.TokenLiteralM : StateT (Option Statement) (Except Panic) String := fun s =>
  match s with
  | none => throw Panic.nilDereference
  | some (.script p) => do
    let (r, p1) ← onPointee ScriptStatement.TokenLiteralM p
    pure (r, some (.script p1))
  | some (.block p) => do
    let (r, p1) ← onPointee BlockStatement.TokenLiteralM p
    pure (r, some (.block p1))
  | some (.command p) => do
    let (r, p1) ← onPointee CommandStatement.TokenLiteralM p
    pure (r, some (.command p1))
  | some (.raw p) => do
    let (r, p1) ← onPointee RawStatement.TokenLiteralM p
    pure (r, some (.raw p1))
  | some (.ifStmt p) => do
    let (r, p1) ← onPointee IfStatement.TokenLiteralM p
    pure (r, some (.ifStmt p1))

/-- State-passing form of Program.TokenLiteral: the state is the whole tree.
The first top-level statement left by the call on it is stored back at
index 0. -/
def Program.TokenLiteralM : StateT Program (Except Panic) String := fun prog =>
  if prog.TopLevelStatements.length > 0 then do
    let s ← index prog.TopLevelStatements 0
    let (r, s1) ← Statement.TokenLiteralM s
    pure (r, { prog with TopLevelStatements := prog.TopLevelStatements.set 0 s1 })
  else
    pure ("", prog)

/-- Two consecutive calls of a state-passing method: the two results and the
state left by the second call. -/
def twice {σ : Type} (m : StateT σ (Except Panic) String) :
    StateT σ (Except Panic) (String × String) := do
  let r1 ← m
  let r2 ← m
  pure (r1, r2)

/-! ## Theorems -/

/-- C1: for every Program P, if P.TopLevelStatements is empty then
P.TokenLiteral() is the empty string, and if it has at least one element then
P.TokenLiteral() is the TokenLiteral() of P.TopLevelStatements[0]. -/
theorem program_tokenLiteral_empty_or_first (P : Program) :
    (P.TopLevelStatements = [] → Program.TokenLiteral (some P) = Except.ok "") ∧
    (∀ h : 0 < P.TopLevelStatements.length,
      Program.TokenLiteral (some P)
        = Statement.TokenLiteral (P.TopLevelStatements.get ⟨0, h⟩)) := by
  obtain ⟨stmts, texts⟩ := P
  refine ⟨?_, ?_⟩
  · intro h
    simp only at h
    subst h
    rfl
  · intro h
    cases stmts with
    | nil => simp at h
    | cons s rest =>
      simp [Program.TokenLiteral, deref, index, pure, Except.pure, bind, Except.bind]

/-- Witness of C1: the empty Program, and a Program whose first top-level
statement is a script introduced by the token with literal script. -/
theorem program_tokenLiteral_empty_or_first_witness :
    Program.TokenLiteral (some ⟨[], []⟩) = Except.ok "" ∧
    Program.TokenLiteral
      (some ⟨[some (.script (some (.mk ⟨"SCRIPT", "script"⟩ none none))), none], []⟩)
      = Except.ok "script" :=
  ⟨(program_tokenLiteral_empty_or_first ⟨[], []⟩).1 rfl,
   ((program_tokenLiteral_empty_or_first
      ⟨[some (.script (some (.mk ⟨"SCRIPT", "script"⟩ none none))), none], []⟩).2
      (by decide)).trans rfl⟩

/-- C2: for every ScriptStatement, BlockStatement, CommandStatement,
RawStatement, IfStatement and Identifier node, TokenLiteral() is exactly the
Literal of the node's Token, whatever the other fields of the node are; no
child is read. -/
theorem node_tokenLiteral_eq_token_literal :
    (∀ (tok : token.Token) (name : Option Identifier) (body : Option BlockStatement),
      ScriptStatement.TokenLiteral (some (.mk tok name body)) = Except.ok tok.Literal) ∧
    (∀ (tok : token.Token) (stmts : List (Option Statement)),
      BlockStatement.TokenLiteral (some (.mk tok stmts)) = Except.ok tok.Literal) ∧
    (∀ (tok : token.Token) (name : Option Identifier) (args : List String),
      CommandStatement.TokenLiteral (some ⟨tok, name, args⟩) = Except.ok tok.Literal) ∧
    (∀ (tok : token.Token) (name : Option Identifier) (value : String) (isGlobal : Bool),
      RawStatement.TokenLiteral (some ⟨tok, name, value, isGlobal⟩) = Except.ok tok.Literal) ∧
    (∀ (tok : token.Token) (c : Option ConditionExpression)
        (es : List (Option ConditionExpression)) (e : Option BlockStatement),
      IfStatement.TokenLiteral (some (.mk tok c es e)) = Except.ok tok.Literal) ∧
    (∀ (tok : token.Token) (value : String),
      Identifier.TokenLiteral (some ⟨tok, value⟩) = Except.ok tok.Literal) :=
  ⟨fun _ _ _ => rfl, fun _ _ => rfl, fun _ _ _ => rfl, fun _ _ _ _ => rfl,
   fun _ _ _ _ => rfl, fun _ _ => rfl⟩

/-- C3, as stated, fails: ConditionExpression declares no field Token and no
method TokenLiteral, so it neither retains a token nor implements Node. -/
theorem conditionExpression_not_node :
    ¬ (∀ t : TypeName, hasTokenField t = true ∧ implements t .Node = true) ∧
    hasTokenField .ConditionExpression = false ∧
    implements .ConditionExpression .Node = false ∧
    TypeName.methods .ConditionExpression = [] := by
  refine ⟨?_, by decide, by decide, rfl⟩
  intro h
  exact absurd (h .ConditionExpression).1 (by decide)

/-- C3, amended: ScriptStatement, BlockStatement, CommandStatement,
Identifier, RawStatement and IfStatement are exactly the types that hold the
token that introduced them; each of them implements Node and its
TokenLiteral() returns the Literal of that token. Program implements Node
without holding a token. ConditionExpression and Text hold no token and do
not implement Node. -/
theorem token_holders_implement_node :
    (∀ t : TypeName, hasTokenField t = true ↔
      t ∈ [TypeName.ScriptStatement, .BlockStatement, .CommandStatement, .Identifier,
        .RawStatement, .IfStatement]) ∧
    (∀ t : TypeName, implements t .Node = true ↔
      t ∉ [TypeName.ConditionExpression, .Text]) ∧
    (∀ ss : ScriptStatement,
      ScriptStatement.TokenLiteral (some ss) = Except.ok ss.Token.Literal) ∧
    (∀ bs : BlockStatement,
      BlockStatement.TokenLiteral (some bs) = Except.ok bs.Token.Literal) ∧
    (∀ cs : CommandStatement,
      CommandStatement.TokenLiteral (some cs) = Except.ok cs.Token.Literal) ∧
    (∀ i : Identifier,
      Identifier.TokenLiteral (some i) = Except.ok i.Token.Literal) ∧
    (∀ rs : RawStatement,
      RawStatement.TokenLiteral (some rs) = Except.ok rs.Token.Literal) ∧
    (∀ ie : IfStatement,
      IfStatement.TokenLiteral (some ie) = Except.ok ie.Token.Literal) := by
  refine ⟨?_, ?_, fun _ => rfl, fun _ => rfl, fun _ => rfl, fun _ => rfl,
    fun _ => rfl, fun _ => rfl⟩
  · intro t
    cases t <;> decide
  · intro t
    cases t <;> decide

/-- C4, as stated, fails: a value of the interface type Statement can be the
nil interface value, which is none of the five variants; the Program whose
TopLevelStatements holds just that value is a value of the type, and calling
TokenLiteral() on it dereferences nil. -/
theorem statement_nil_interface_not_variant :
    (none : Option Statement) ∈ (Program.mk [none] []).TopLevelStatements ∧
    Statement.dynamicType none = none ∧
    (∀ s : Statement, (none : Option Statement) ≠ some s) ∧
    ¬ (∀ (P : Program) (x : Option Statement), x ∈ P.TopLevelStatements →
        ∃ t, t ∈ statementVariants ∧ Statement.dynamicType x = some t) ∧
    Program.TokenLiteral (some ⟨[none], []⟩) = Except.error Panic.nilDereference := by
  refine ⟨List.mem_singleton.mpr rfl, rfl, fun _ h => Option.noConfusion h, ?_, rfl⟩
  intro h
  obtain ⟨t, _, ht⟩ := h ⟨[none], []⟩ none (List.mem_singleton.mpr rfl)
  exact Option.noConfusion ht

/-- Every dynamic type found among the values of a slice of Statement is one
of the five variants. -/
theorem mem_dynamicTypes_variant (xs : List (Option Statement)) (t : TypeName)
    (h : t ∈ dynamicTypes xs) : t ∈ statementVariants := by
  unfold dynamicTypes at h
  rw [List.mem_filterMap] at h
  obtain ⟨x, _, hx⟩ := h
  rcases x with _ | s
  · exact Option.noConfusion hx
  · simp only [Statement.dynamicType, Option.some.injEq] at hx
    subst hx
    cases s <;> simp [Statement.typeName, statementVariants]

/-- C4, amended: the interface Statement is implemented by exactly the five
variants ScriptStatement, BlockStatement, CommandStatement, RawStatement and
IfStatement, and these are exactly the dynamic types a value of type
Statement can have. Every value of type Statement is either the nil interface
value, which has no dynamic type, or has one of these five as its dynamic
type. ConditionExpression, Identifier, Text and Program are not Statements,
so no dynamic type found in Program.TopLevelStatements or in
BlockStatement.Statements is one of them. The nil interface value can be
stored in both sequences. -/
theorem statement_variants_closed_or_nil :
    (∀ t : TypeName, implements t .Statement = true ↔ t ∈ statementVariants) ∧
    (∀ t : TypeName, t ∈ statementVariants ↔ ∃ s : Statement, s.typeName = t) ∧
    (∀ x : Option Statement, x = none ∨
      ∃ t, Statement.dynamicType x = some t ∧ implements t .Statement = true) ∧
    implements .ConditionExpression .Statement = false ∧
    implements .Identifier .Statement = false ∧
    implements .Text .Statement = false ∧
    implements .Program .Statement = false ∧
    (∀ (P : Program) (t : TypeName), t ∈ dynamicTypes P.TopLevelStatements →
      implements t .Statement = true ∧
      t ∉ [TypeName.ConditionExpression, .Identifier, .Text, .Program]) ∧
    (∀ (b : BlockStatement) (t : TypeName), t ∈ dynamicTypes b.Statements →
      implements t .Statement = true ∧
      t ∉ [TypeName.ConditionExpression, .Identifier, .Text, .Program]) ∧
    (∀ (xs : List (Option Statement)) (texts : List Text),
      (none : Option Statement) ∈ (Program.mk (none :: xs) texts).TopLevelStatements) ∧
    (∀ (tok : token.Token) (xs : List (Option Statement)),
      (none : Option Statement) ∈ (BlockStatement.mk tok (none :: xs)).Statements) := by
  have himpl : ∀ t : TypeName, implements t .Statement = true ↔ t ∈ statementVariants := by
    intro t
    cases t <;> decide
  have hout : ∀ t : TypeName, t ∈ statementVariants →
      t ∉ [TypeName.ConditionExpression, .Identifier, .Text, .Program] := by
    intro t
    cases t <;> decide
  refine ⟨himpl, ?_, ?_, by decide, by decide, by decide, by decide, ?_, ?_, ?_, ?_⟩
  · intro t
    constructor
    · intro ht
      cases t with
      | ScriptStatement => exact ⟨.script none, rfl⟩
      | BlockStatement => exact ⟨.block none, rfl⟩
      | CommandStatement => exact ⟨.command none, rfl⟩
      | RawStatement => exact ⟨.raw none, rfl⟩
      | IfStatement => exact ⟨.ifStmt none, rfl⟩
      | Text => exact absurd ht (by decide)
      | Program => exact absurd ht (by decide)
      | Identifier => exact absurd ht (by decide)
      | ConditionExpression => exact absurd ht (by decide)
    · rintro ⟨s, rfl⟩
      cases s <;> simp [Statement.typeName, statementVariants]
  · intro x
    rcases x with _ | s
    · exact Or.inl rfl
    · refine Or.inr ⟨s.typeName, rfl, (himpl _).mpr ?_⟩
      cases s <;> simp [Statement.typeName, statementVariants]
  · intro P t ht
    have hv := mem_dynamicTypes_variant _ t ht
    exact ⟨(himpl t).mpr hv, hout t hv⟩
  · intro b t ht
    have hv := mem_dynamicTypes_variant _ t ht
    exact ⟨(himpl t).mpr hv, hout t hv⟩
  · intro xs texts
    exact List.mem_cons_self _ _
  · intro tok xs
    exact List.mem_cons_self _ _

/-- Witness of C4: a Program that holds a command statement and the nil
interface value, and a block that holds the nil interface value and a raw
statement with a nil pointer: the dynamic types found are CommandStatement
and RawStatement, both implementing Statement. -/
theorem statement_variants_closed_or_nil_witness :
    dynamicTypes (Program.mk
        [some (.command (some ⟨⟨"IDENT", "msgbox"⟩, none, []⟩)), none] []).TopLevelStatements
      = [TypeName.CommandStatement] ∧
    (implements .CommandStatement .Statement = true ∧
      TypeName.CommandStatement
        ∉ [TypeName.ConditionExpression, .Identifier, .Text, .Program]) ∧
    (implements .RawStatement .Statement = true ∧
      TypeName.RawStatement
        ∉ [TypeName.ConditionExpression, .Identifier, .Text, .Program]) :=
  ⟨rfl,
   statement_variants_closed_or_nil.2.2.2.2.2.2.2.1
      ⟨[some (.command (some ⟨⟨"IDENT", "msgbox"⟩, none, []⟩)), none], []⟩
      .CommandStatement (List.mem_singleton.mpr rfl),
   statement_variants_closed_or_nil.2.2.2.2.2.2.2.2.1
      (.mk ⟨"LBRACE", "\x7b"⟩ [none, some (.raw none)])
      .RawStatement (List.mem_singleton.mpr rfl)⟩

/-- C5, as stated, fails: a ScriptStatement whose Body is the nil pointer is a
value of the type, here the script EntryPoint without a body. -/
theorem scriptStatement_nil_body_exists :
    (ScriptStatement.mk ⟨"SCRIPT", "script"⟩
        (some ⟨⟨"IDENT", "EntryPoint"⟩, "EntryPoint"⟩) none).Body = none ∧
    ¬ (∀ s : ScriptStatement, ∃ b : BlockStatement, s.Body = some b) := by
  refine ⟨rfl, ?_⟩
  intro h
  obtain ⟨b, hb⟩ := h (ScriptStatement.mk ⟨"SCRIPT", "script"⟩
    (some ⟨⟨"IDENT", "EntryPoint"⟩, "EntryPoint"⟩) none)
  simp [ScriptStatement.Body] at hb

/-- C5, amended: the Body of a ScriptStatement is a pointer that is either nil
or refers to a BlockStatement, and both are representable: whatever the Token
and the Name, a ScriptStatement can be built with any Body, the nil pointer
included, and its TokenLiteral() is the Literal of its Token either way. -/
theorem scriptStatement_body_any_pointer :
    (∀ s : ScriptStatement, s.Body = none ∨ ∃ b : BlockStatement, s.Body = some b) ∧
    (∀ (tok : token.Token) (name : Option Identifier) (body : Option BlockStatement),
      ∃ s : ScriptStatement, s.Token = tok ∧ s.Name = name ∧ s.Body = body ∧
        ScriptStatement.TokenLiteral (some s) = Except.ok tok.Literal) ∧
    (∀ (tok : token.Token) (name : Option Identifier),
      (ScriptStatement.mk tok name none).Body = none) := by
  refine ⟨?_, ?_, fun _ _ => rfl⟩
  · intro s
    cases h : s.Body with
    | none => exact Or.inl rfl
    | some b => exact Or.inr ⟨b, rfl⟩
  · intro tok name body
    exact ⟨.mk tok name body, rfl, rfl, rfl, rfl⟩

/-- C6, as stated, fails: an Identifier whose Value is the empty string is a
value of the type. -/
theorem identifier_empty_value_exists :
    (Identifier.mk ⟨"IDENT", "EntryPoint"⟩ "").Value = "" ∧
    ¬ (∀ i : Identifier, i.Value ≠ "") := by
  refine ⟨rfl, ?_⟩
  intro h
  exact h (Identifier.mk ⟨"IDENT", "EntryPoint"⟩ "") rfl

/-- C6, amended: the Value of an Identifier is an arbitrary string, the empty
string included: whatever the Token, an Identifier can be built with any
Value, and its TokenLiteral() is the Literal of its Token whatever the Value
is. -/
theorem identifier_value_any_string :
    (∀ (tok : token.Token) (v : String),
      ∃ i : Identifier, i.Token = tok ∧ i.Value = v ∧
        Identifier.TokenLiteral (some i) = Except.ok tok.Literal) ∧
    (∀ tok : token.Token, (Identifier.mk tok "").Value = "" ∧
      Identifier.TokenLiteral (some (Identifier.mk tok "")) = Except.ok tok.Literal) :=
  ⟨fun tok v => ⟨⟨tok, v⟩, rfl, rfl, rfl⟩, fun _ => ⟨rfl, rfl⟩⟩

/-- C7: for every ScriptStatement s whose Body is a BlockStatement b holding
exactly one CommandStatement, built from ctok, cname and cargs, the Program
whose TopLevelStatements is [s] has TokenLiteral() equal to the Literal of
the Token of s, has exactly one top-level statement, and reading the
Statements of the Body of s yields exactly that one command, whose Token,
Name and Args are ctok, cname and cargs. -/
theorem single_script_program_readback (s : ScriptStatement) (b : BlockStatement)
    (ctok : token.Token) (cname : Option Identifier) (cargs : List String)
    (texts : List Text)
    (hb : s.Body = some b)
    (hc : b.Statements = [some (.command (some ⟨ctok, cname, cargs⟩))]) :
    Program.TokenLiteral (some ⟨[some (.script (some s))], texts⟩)
      = Except.ok s.Token.Literal ∧
    (Program.mk [some (.script (some s))] texts).TopLevelStatements.length = 1 ∧
    (Program.mk [some (.script (some s))] texts).TopLevelStatements
      = [some (.script (some s))] ∧
    (do let body ← deref s.Body; pure body.Statements)
      = Except.ok [some (Statement.command (some ⟨ctok, cname, cargs⟩))] ∧
    (CommandStatement.mk ctok cname cargs).Token = ctok ∧
    (CommandStatement.mk ctok cname cargs).Name = cname ∧
    (CommandStatement.mk ctok cname cargs).Args = cargs := by
  refine ⟨rfl, rfl, rfl, ?_, rfl, rfl, rfl⟩
  rw [hb]
  simp only [deref, pure, Except.pure, bind, Except.bind, hc]

/-- Witness of C7: the script EntryPoint whose body holds the one command
msgbox with the argument $intro. The literal reported is the one of the
script token, not the one of the name or of the body. -/
theorem single_script_program_readback_witness :
    Program.TokenLiteral
      (some ⟨[some (.script (some (.mk ⟨"SCRIPT", "script"⟩
        (some ⟨⟨"IDENT", "EntryPoint"⟩, "EntryPoint"⟩)
        (some (.mk ⟨"LBRACE", "\x7b"⟩
          [some (.command (some ⟨⟨"IDENT", "msgbox"⟩,
            some ⟨⟨"IDENT", "msgbox"⟩, "msgbox"⟩, ["$intro"]⟩))])))))], []⟩)
      = Except.ok "script" :=
  (single_script_program_readback
    (.mk ⟨"SCRIPT", "script"⟩ (some ⟨⟨"IDENT", "EntryPoint"⟩, "EntryPoint"⟩)
      (some (.mk ⟨"LBRACE", "\x7b"⟩
        [some (.command (some ⟨⟨"IDENT", "msgbox"⟩,
          some ⟨⟨"IDENT", "msgbox"⟩, "msgbox"⟩, ["$intro"]⟩))])))
    (.mk ⟨"LBRACE", "\x7b"⟩
      [some (.command (some ⟨⟨"IDENT", "msgbox"⟩,
        some ⟨⟨"IDENT", "msgbox"⟩, "msgbox"⟩, ["$intro"]⟩))])
    ⟨"IDENT", "msgbox"⟩ (some ⟨⟨"IDENT", "msgbox"⟩, "msgbox"⟩) ["$intro"] []
    rfl rfl).1

/-- Reading the bodies of arms that are all present yields their bodies in
the order stored. -/
theorem elifBodies_map_some (es : List ConditionExpression) :
    elifBodies (es.map some) = Except.ok (es.map ConditionExpression.Body) := by
  induction es with
  | nil => rfl
  | cons e es ih =>
    simp only [List.map_cons, elifBodies, deref, ih]
    rfl

/-- C8: for every IfStatement built with primary condition c, elif arms es and
else block b, reading it back yields Consequence c, ElifConsequences es in the
same order and length, and ElseConsequence b; the candidate bodies in
traversal order are the Body of c followed by the bodies of es in order, and
the fallback is b. -/
theorem ifStatement_readback_in_order (tok : token.Token) (c : ConditionExpression)
    (es : List ConditionExpression) (b : Option BlockStatement) :
    (IfStatement.mk tok (some c) (es.map some) b).Consequence = some c ∧
    (IfStatement.mk tok (some c) (es.map some) b).ElifConsequences = es.map some ∧
    (IfStatement.mk tok (some c) (es.map some) b).ElifConsequences.length = es.length ∧
    (∀ (i : Nat) (h : i < es.length),
      (IfStatement.mk tok (some c) (es.map some) b).ElifConsequences[i]?
        = some (some (es.get ⟨i, h⟩))) ∧
    (IfStatement.mk tok (some c) (es.map some) b).ElseConsequence = b ∧
    (IfStatement.mk tok (some c) (es.map some) b).candidateBodies
      = Except.ok (c.Body :: es.map ConditionExpression.Body) ∧
    (IfStatement.mk tok (some c) (es.map some) b).fallback = b := by
  refine ⟨rfl, rfl, ?_, ?_, rfl, ?_, rfl⟩
  · simp [IfStatement.ElifConsequences]
  · intro i h
    simp [IfStatement.ElifConsequences, h]
  · simp only [IfStatement.candidateBodies, IfStatement.Consequence,
      IfStatement.ElifConsequences, deref, elifBodies_map_some]
    rfl

/-- Witness of C8: the condition on flag equal to 1 with body B0, one elif on
flag equal to 2 with body B1, and the else body B2: the candidates are B0, B1
in that order and the fallback is B2. -/
theorem ifStatement_readback_in_order_witness :
    (IfStatement.mk ⟨"IF", "if"⟩
        (some (.mk "FLAG" "flag" "EQ" "1" (some (.mk ⟨"LBRACE", "B0"⟩ []))))
        [some (.mk "FLAG" "flag" "EQ" "2" (some (.mk ⟨"LBRACE", "B1"⟩ [])))]
        (some (.mk ⟨"LBRACE", "B2"⟩ []))).candidateBodies
      = Except.ok [some (.mk ⟨"LBRACE", "B0"⟩ []), some (.mk ⟨"LBRACE", "B1"⟩ [])] ∧
    (IfStatement.mk ⟨"IF", "if"⟩
        (some (.mk "FLAG" "flag" "EQ" "1" (some (.mk ⟨"LBRACE", "B0"⟩ []))))
        [some (.mk "FLAG" "flag" "EQ" "2" (some (.mk ⟨"LBRACE", "B1"⟩ [])))]
        (some (.mk ⟨"LBRACE", "B2"⟩ []))).fallback
      = some (.mk ⟨"LBRACE", "B2"⟩ []) :=
  ⟨(ifStatement_readback_in_order ⟨"IF", "if"⟩
      (.mk "FLAG" "flag" "EQ" "1" (some (.mk ⟨"LBRACE", "B0"⟩ [])))
      [.mk "FLAG" "flag" "EQ" "2" (some (.mk ⟨"LBRACE", "B1"⟩ []))]
      (some (.mk ⟨"LBRACE", "B2"⟩ []))).2.2.2.2.2.1,
   (ifStatement_readback_in_order ⟨"IF", "if"⟩
      (.mk "FLAG" "flag" "EQ" "1" (some (.mk ⟨"LBRACE", "B0"⟩ [])))
      [.mk "FLAG" "flag" "EQ" "2" (some (.mk ⟨"LBRACE", "B1"⟩ []))]
      (some (.mk ⟨"LBRACE", "B2"⟩ []))).2.2.2.2.2.2⟩

/-- C9: for every Program P and Text entries t1 and t2, appending t1 then t2
yields a Program whose Texts is the Texts of P followed by t1 then t2, each
with its Name and Value unchanged, and whose TopLevelStatements is that of P;
nothing is removed, reordered or deduplicated, also when t1 and t2 have the
same Name. -/
theorem appendText_twice_preserves (P : Program) (t1 t2 : Text) :
    ((P.appendText t1).appendText t2).Texts = P.Texts ++ [t1, t2] ∧
    ((P.appendText t1).appendText t2).TopLevelStatements = P.TopLevelStatements ∧
    ((P.appendText t1).appendText t2).Texts.length = P.Texts.length + 2 ∧
    (∀ (i : Nat) (h : i < P.Texts.length),
      ((P.appendText t1).appendText t2).Texts[i]? = some (P.Texts.get ⟨i, h⟩)) ∧
    ((P.appendText t1).appendText t2).Texts[P.Texts.length]? = some t1 ∧
    ((P.appendText t1).appendText t2).Texts[P.Texts.length + 1]? = some t2 ∧
    ((P.appendText t1).appendText t1).Texts = P.Texts ++ [t1, t1] := by
  refine ⟨?_, rfl, ?_, ?_, ?_, ?_, ?_⟩
  · simp [Program.appendText]
  · simp [Program.appendText]
  · intro i h
    simp [Program.appendText, List.getElem?_append_left, h]
  · show (P.Texts ++ [t1] ++ [t2])[P.Texts.length]? = some t1
    rw [List.append_assoc, List.getElem?_append_right (le_refl _)]
    simp
  · show (P.Texts ++ [t1] ++ [t2])[P.Texts.length + 1]? = some t2
    rw [List.append_assoc, List.getElem?_append_right (Nat.le_add_right _ _)]
    simp
  · simp [Program.appendText]

/-- Witness of C9: two entries with the same Name appended to a Program that
already holds one text: all three are kept, in order. -/
theorem appendText_twice_preserves_witness :
    ((Program.appendText ⟨[], [⟨"intro", "Hello"⟩]⟩ ⟨"bye", "A"⟩).appendText
        ⟨"bye", "B"⟩).Texts
      = [⟨"intro", "Hello"⟩, ⟨"bye", "A"⟩, ⟨"bye", "B"⟩] :=
  (appendText_twice_preserves ⟨[], [⟨"intro", "Hello"⟩]⟩ ⟨"bye", "A"⟩ ⟨"bye", "B"⟩).1

/-- The state-passing call on an interface value returns the result of
Statement.TokenLiteral and leaves the value and its node as they were. -/
theorem statement_tokenLiteralM_eq (s : Option Statement) :
    Statement.TokenLiteralM s = (Statement.TokenLiteral s).map (fun r => (r, s)) := by
  rcases s with _ | s
  · rfl
  · cases s with
    | script p => cases p <;> rfl
    | block p => cases p <;> rfl
    | command p => cases p <;> rfl
    | raw p => cases p <;> rfl
    | ifStmt p => cases p <;> rfl

/-- The state-passing call on a Program returns the result of
Program.TokenLiteral and leaves the tree as it was. -/
theorem program_tokenLiteralM_eq (P : Program) :
    Program.TokenLiteralM P = (Program.TokenLiteral (some P)).map (fun r => (r, P)) := by
  obtain ⟨stmts, texts⟩ := P
  cases stmts with
  | nil => rfl
  | cons s rest =>
    have hs := statement_tokenLiteralM_eq s
    simp only [Program.TokenLiteralM, Program.TokenLiteral, deref, index, List.length_cons,
      Nat.zero_lt_succ, if_true, gt_iff_lt, List.getElem?_cons_zero, pure, Except.pure, bind,
      Except.bind, hs]
    cases Statement.TokenLiteral s <;> rfl

/-- C10: reading is idempotent and non-mutating. For every Program and for
every value of the interface Statement, the call of TokenLiteral() returns
what the method returns and leaves the tree exactly as it was (every field of
it: a call that returns leaves TopLevelStatements and Texts unchanged), and
two consecutive calls return the same string twice, again leaving the tree
as it was. -/
theorem tokenLiteral_reads_only :
    (∀ P : Program,
      Program.TokenLiteralM P = (Program.TokenLiteral (some P)).map (fun r => (r, P))) ∧
    (∀ s : Option Statement,
      Statement.TokenLiteralM s = (Statement.TokenLiteral s).map (fun r => (r, s))) ∧
    (∀ P : Program,
      twice Program.TokenLiteralM P
        = (Program.TokenLiteral (some P)).map (fun r => ((r, r), P))) ∧
    (∀ s : Option Statement,
      twice Statement.TokenLiteralM s
        = (Statement.TokenLiteral s).map (fun r => ((r, r), s))) ∧
    (∀ (P P1 : Program) (r : String), Program.TokenLiteralM P = Except.ok (r, P1) →
      P1.TopLevelStatements = P.TopLevelStatements ∧ P1.Texts = P.Texts ∧
      Program.TokenLiteralM P1 = Except.ok (r, P1)) := by
  refine ⟨program_tokenLiteralM_eq, statement_tokenLiteralM_eq, ?_, ?_, ?_⟩
  · intro P
    have h := program_tokenLiteralM_eq P
    simp only [twice, bind, StateT.bind, pure, StateT.pure, h]
    cases hr : Program.TokenLiteral (some P) <;> rw [hr] at h <;>
      simp [Except.map, Except.bind, Except.pure, h]
  · intro s
    have h := statement_tokenLiteralM_eq s
    simp only [twice, bind, StateT.bind, pure, StateT.pure, h]
    cases hr : Statement.TokenLiteral s <;> rw [hr] at h <;>
      simp [Except.map, Except.bind, Except.pure, h]
  · intro P P1 r h
    have h0 := program_tokenLiteralM_eq P
    rw [h0] at h
    cases hr : Program.TokenLiteral (some P) with
    | error e => rw [hr] at h; simp [Except.map] at h
    | ok v =>
      rw [hr] at h
      simp only [Except.map, Except.ok.injEq, Prod.mk.injEq] at h
      obtain ⟨hv, hP⟩ := h
      subst hP
      subst hv
      rw [h0, hr]
      exact ⟨rfl, rfl, rfl⟩

/-- Witness of C10: the call on a Program with one script and one text returns
the literal script and leaves both sequences as they were. -/
theorem tokenLiteral_reads_only_witness :
    (Program.mk [some (.script (some (.mk ⟨"SCRIPT", "script"⟩ none none)))]
        [⟨"intro", "Hello"⟩]).TopLevelStatements
      = [some (.script (some (.mk ⟨"SCRIPT", "script"⟩ none none)))] ∧
    Program.TokenLiteralM
        ⟨[some (.script (some (.mk ⟨"SCRIPT", "script"⟩ none none)))], [⟨"intro", "Hello"⟩]⟩
      = Except.ok ("script",
          ⟨[some (.script (some (.mk ⟨"SCRIPT", "script"⟩ none none)))],
            [⟨"intro", "Hello"⟩]⟩) :=
  ⟨(tokenLiteral_reads_only.2.2.2.2
      ⟨[some (.script (some (.mk ⟨"SCRIPT", "script"⟩ none none)))], [⟨"intro", "Hello"⟩]⟩
      ⟨[some (.script (some (.mk ⟨"SCRIPT", "script"⟩ none none)))], [⟨"intro", "Hello"⟩]⟩
      "script" rfl).1,
   (tokenLiteral_reads_only.2.2.2.2
      ⟨[some (.script (some (.mk ⟨"SCRIPT", "script"⟩ none none)))], [⟨"intro", "Hello"⟩]⟩
      ⟨[some (.script (some (.mk ⟨"SCRIPT", "script"⟩ none none)))], [⟨"intro", "Hello"⟩]⟩
      "script" rfl).2.2⟩

/-- On a Program without top-level statements the method returns the empty
string, whatever the Texts. -/
theorem program_tokenLiteral_nil (texts : List Text) :
    Program.TokenLiteral (some ⟨[], texts⟩) = Except.ok "" := rfl

/-- On a Program with a first top-level statement the method is the method
call on that statement, whatever the later statements and the Texts. -/
theorem program_tokenLiteral_cons (s : Option Statement) (rest : List (Option Statement))
    (texts : List Text) :
    Program.TokenLiteral (some ⟨s :: rest, texts⟩) = Statement.TokenLiteral s := by
  simp [Program.TokenLiteral, deref, index, pure, Except.pure, bind, Except.bind]

/-- The method call on a non-nil node returns a string. -/
theorem statement_tokenLiteral_of_nonNil (s : Option Statement)
    (h : Statement.nonNil s = true) : ∃ str, Statement.TokenLiteral s = Except.ok str := by
  rcases s with _ | s
  · simp [Statement.nonNil] at h
  · cases s with
    | script p =>
      cases p with
      | none => simp [Statement.nonNil] at h
      | some x => exact ⟨x.Token.Literal, rfl⟩
    | block p =>
      cases p with
      | none => simp [Statement.nonNil] at h
      | some x => exact ⟨x.Token.Literal, rfl⟩
    | command p =>
      cases p with
      | none => simp [Statement.nonNil] at h
      | some x => exact ⟨x.Token.Literal, rfl⟩
    | raw p =>
      cases p with
      | none => simp [Statement.nonNil] at h
      | some x => exact ⟨x.Token.Literal, rfl⟩
    | ifStmt p =>
      cases p with
      | none => simp [Statement.nonNil] at h
      | some x => exact ⟨x.Token.Literal, rfl⟩

/-- The method call on an interface value never fails with an index out of
range. -/
theorem statement_tokenLiteral_ne_indexOutOfRange (s : Option Statement) :
    Statement.TokenLiteral s ≠ Except.error Panic.indexOutOfRange := by
  rcases s with _ | s
  · simp [Statement.TokenLiteral, throw, throwThe, MonadExceptOf.throw]
  · cases s with
    | script p => cases p <;> simp [Statement.TokenLiteral, ScriptStatement.TokenLiteral,
        deref, throw, throwThe, MonadExceptOf.throw, pure, Except.pure, bind, Except.bind]
    | block p => cases p <;> simp [Statement.TokenLiteral, BlockStatement.TokenLiteral,
        deref, throw, throwThe, MonadExceptOf.throw, pure, Except.pure, bind, Except.bind]
    | command p => cases p <;> simp [Statement.TokenLiteral, CommandStatement.TokenLiteral,
        deref, throw, throwThe, MonadExceptOf.throw, pure, Except.pure, bind, Except.bind]
    | raw p => cases p <;> simp [Statement.TokenLiteral, RawStatement.TokenLiteral,
        deref, throw, throwThe, MonadExceptOf.throw, pure, Except.pure, bind, Except.bind]
    | ifStmt p => cases p <;> simp [Statement.TokenLiteral, IfStatement.TokenLiteral,
        deref, throw, throwThe, MonadExceptOf.throw, pure, Except.pure, bind, Except.bind]

/-- C11: Program.TokenLiteral depends only on the first top-level statement.
For any two Programs P and Q whose TopLevelStatements are both non-empty and
have the same first element, P.TokenLiteral() is Q.TokenLiteral(), whatever
their Texts and their statements after the first; and for any two Programs
with empty TopLevelStatements the results are equal whatever their Texts. -/
theorem program_tokenLiteral_only_first (P Q : Program) :
    (∀ (hP : 0 < P.TopLevelStatements.length) (hQ : 0 < Q.TopLevelStatements.length),
      P.TopLevelStatements.get ⟨0, hP⟩ = Q.TopLevelStatements.get ⟨0, hQ⟩ →
      Program.TokenLiteral (some P) = Program.TokenLiteral (some Q)) ∧
    (P.TopLevelStatements = [] → Q.TopLevelStatements = [] →
      Program.TokenLiteral (some P) = Program.TokenLiteral (some Q)) := by
  obtain ⟨ps, pt⟩ := P
  obtain ⟨qs, qt⟩ := Q
  refine ⟨?_, ?_⟩
  · intro hP hQ h
    cases ps with
    | nil => simp at hP
    | cons p ps =>
      cases qs with
      | nil => simp at hQ
      | cons q qs =>
        simp only [List.get_eq_getElem, List.getElem_cons_zero] at h
        rw [program_tokenLiteral_cons, program_tokenLiteral_cons, h]
  · intro hP hQ
    simp only at hP hQ
    subst hP
    subst hQ
    rfl

/-- Witness of C11: two Programs that share the first statement, a script,
and differ in the later statements and in the Texts; and two Programs
without statements that differ in the Texts. -/
theorem program_tokenLiteral_only_first_witness :
    Program.TokenLiteral
        (some ⟨[some (.script (some (.mk ⟨"SCRIPT", "script"⟩ none none))), none],
          [⟨"intro", "Hello"⟩]⟩)
      = Program.TokenLiteral
        (some ⟨[some (.script (some (.mk ⟨"SCRIPT", "script"⟩ none none))),
          some (.raw (some ⟨⟨"RAW", "raw"⟩, none, "nop", true⟩))], []⟩) ∧
    Program.TokenLiteral (some ⟨[], [⟨"intro", "Hello"⟩]⟩)
      = Program.TokenLiteral (some ⟨[], []⟩) :=
  ⟨(program_tokenLiteral_only_first
      ⟨[some (.script (some (.mk ⟨"SCRIPT", "script"⟩ none none))), none],
        [⟨"intro", "Hello"⟩]⟩
      ⟨[some (.script (some (.mk ⟨"SCRIPT", "script"⟩ none none))),
        some (.raw (some ⟨⟨"RAW", "raw"⟩, none, "nop", true⟩))], []⟩).1
      (by decide) (by decide) rfl,
   (program_tokenLiteral_only_first ⟨[], [⟨"intro", "Hello"⟩]⟩ ⟨[], []⟩).2 rfl rfl⟩

/-- C12: appending a top-level statement s to a Program P changes the
diagnostic literal only when P was empty. If P.TopLevelStatements is
non-empty, the Program with s appended has the same TokenLiteral() as P; if
it is empty, the Program with s appended has TokenLiteral() equal to
s.TokenLiteral(). -/
theorem appendStatement_tokenLiteral (P : Program) (s : Option Statement) :
    (P.TopLevelStatements ≠ [] →
      Program.TokenLiteral (some (P.appendStatement s)) = Program.TokenLiteral (some P)) ∧
    (P.TopLevelStatements = [] →
      Program.TokenLiteral (some (P.appendStatement s)) = Statement.TokenLiteral s) := by
  obtain ⟨stmts, texts⟩ := P
  refine ⟨?_, ?_⟩
  · intro h
    cases stmts with
    | nil => exact absurd rfl h
    | cons x rest =>
      show Program.TokenLiteral (some ⟨x :: (rest ++ [s]), texts⟩)
        = Program.TokenLiteral (some ⟨x :: rest, texts⟩)
      rw [program_tokenLiteral_cons, program_tokenLiteral_cons]
  · intro h
    simp only at h
    subst h
    show Program.TokenLiteral (some ⟨[s], texts⟩) = Statement.TokenLiteral s
    rw [program_tokenLiteral_cons]

/-- Witness of C12: a raw statement appended to a Program that holds one
script leaves the literal script; appended to the empty Program it gives the
literal raw. -/
theorem appendStatement_tokenLiteral_witness :
    Program.TokenLiteral
        (some (Program.appendStatement
          ⟨[some (.script (some (.mk ⟨"SCRIPT", "script"⟩ none none)))], []⟩
          (some (.raw (some ⟨⟨"RAW", "raw"⟩, none, "nop", true⟩)))))
      = Except.ok "script" ∧
    Program.TokenLiteral
        (some (Program.appendStatement ⟨[], []⟩
          (some (.raw (some ⟨⟨"RAW", "raw"⟩, none, "nop", true⟩)))))
      = Except.ok "raw" :=
  ⟨((appendStatement_tokenLiteral
      ⟨[some (.script (some (.mk ⟨"SCRIPT", "script"⟩ none none)))], []⟩
      (some (.raw (some ⟨⟨"RAW", "raw"⟩, none, "nop", true⟩)))).1
      (List.cons_ne_nil _ _)).trans rfl,
   ((appendStatement_tokenLiteral ⟨[], []⟩
      (some (.raw (some ⟨⟨"RAW", "raw"⟩, none, "nop", true⟩)))).2 rfl).trans rfl⟩

/-- C13: Program.TokenLiteral is total and its index access is always in
bounds. For every Program, the one with empty (or nil) TopLevelStatements
included, the access TopLevelStatements[0] made when the length is greater
than 0 is in range, and the call never fails with an index out of range; and
when every stored statement is a non-nil node, the call returns a string. -/
theorem program_tokenLiteral_total (P : Program) :
    (0 < P.TopLevelStatements.length → ∃ s, index P.TopLevelStatements 0 = Except.ok s) ∧
    Program.TokenLiteral (some P) ≠ Except.error Panic.indexOutOfRange ∧
    (P.TopLevelStatements = [] → Program.TokenLiteral (some P) = Except.ok "") ∧
    (P.TopLevelStatements.all Statement.nonNil = true →
      ∃ str, Program.TokenLiteral (some P) = Except.ok str) := by
  obtain ⟨stmts, texts⟩ := P
  cases stmts with
  | nil =>
    refine ⟨fun h => absurd h (by simp), ?_, fun _ => rfl, fun _ => ⟨"", rfl⟩⟩
    rw [program_tokenLiteral_nil]
    simp
  | cons x rest =>
    refine ⟨fun _ => ⟨x, by simp [index, pure, Except.pure]⟩, ?_,
      fun h => absurd h (by simp), ?_⟩
    · rw [program_tokenLiteral_cons]
      exact statement_tokenLiteral_ne_indexOutOfRange x
    · intro h
      rw [program_tokenLiteral_cons]
      simp only [List.all_cons, Bool.and_eq_true] at h
      exact statement_tokenLiteral_of_nonNil x h.1

/-- Witness of C13: a Program whose two stored statements are non-nil nodes
returns the literal of the first; the Program without statements returns the
empty string. -/
theorem program_tokenLiteral_total_witness :
    (∃ str, Program.TokenLiteral
        (some ⟨[some (.script (some (.mk ⟨"SCRIPT", "script"⟩ none none))),
          some (.raw (some ⟨⟨"RAW", "raw"⟩, none, "nop", true⟩))], []⟩)
      = Except.ok str) ∧
    (∃ s, index [some (Statement.raw (some ⟨⟨"RAW", "raw"⟩, none, "nop", true⟩))] 0
      = Except.ok s) ∧
    Program.TokenLiteral (some ⟨[], []⟩) = Except.ok "" :=
  ⟨(program_tokenLiteral_total
      ⟨[some (.script (some (.mk ⟨"SCRIPT", "script"⟩ none none))),
        some (.raw (some ⟨⟨"RAW", "raw"⟩, none, "nop", true⟩))], []⟩).2.2.2 rfl,
   (program_tokenLiteral_total
      ⟨[some (.raw (some ⟨⟨"RAW", "raw"⟩, none, "nop", true⟩))], []⟩).1 (by decide),
   (program_tokenLiteral_total ⟨[], []⟩).2.2.1 rfl⟩

end ast
